import Mathlib

/-!
Formal model of the HSMA Career Center change-detector bot (src/app.py).

Python strings are modelled as lists of characters (`Str`); the values that
flow through the program (pandas cells, sqlite columns, bound parameters)
are modelled by `Val`: a string, an integer (the table index), or a null
(pandas NaN).  The sqlite store is modelled as a list of typed rows, which
is exactly the shape this program ever writes: seven text columns and one
integer column.
-/

/-- Python strings, modelled as lists of characters. -/
abbrev Str := List Char

/-- A Python / SQLite value as it flows through this program: a string,
an integer (the table index), or a null (pandas NaN). -/
inductive Val where
  | vStr (s : Str)
  | vInt (n : Int)
  | vNull
deriving DecidableEq

/-- Python `str()` on the values this program handles (`str` is the identity
on strings, decimal rendering on ints, and "nan" on a pandas NaN). -/
def valStr : Val → Str
  | .vStr s => s
  | .vInt n => (toString n).toList
  | .vNull => ("nan").toList

/-- Characters removed by Python `str.strip()` (ASCII whitespace). -/
def isPySpace (c : Char) : Bool :=
  c = ' ' || c = '\t' || c = '\n' || c = '\r' || c = '\x0b' || c = '\x0c'

/-- Python `str.strip()`: drop leading and trailing whitespace. -/
def pyStrip (s : Str) : Str :=
  ((s.dropWhile isPySpace).reverse.dropWhile isPySpace).reverse

/-- Accumulating decimal parser: `none` as soon as a non-digit appears. -/
def digitsVal (s : Str) (acc : Nat) : Option Nat :=
  match s with
  | [] => some acc
  | c :: rest =>
    if c.isDigit then digitsVal rest (acc * 10 + (c.toNat - ('0').toNat)) else none

/-- Python `int()` applied to a string: surrounding whitespace is ignored,
an optional sign is followed by at least one decimal digit; anything else
raises (modelled as `none`). -/
def strToInt (s : Str) : Option Int :=
  match pyStrip s with
  | [] => none
  | '-' :: rest =>
    match rest with
    | [] => none
    | _ :: _ => (digitsVal rest 0).map (fun m => -(m : Int))
  | '+' :: rest =>
    match rest with
    | [] => none
    | _ :: _ => (digitsVal rest 0).map (fun m => (m : Int))
  | other => (digitsVal other 0).map (fun m => (m : Int))

/-- Python `int()` on a value: ints pass through, strings are parsed,
NaN / None raise (modelled as `none`). -/
def valToInt : Val → Option Int
  | .vInt n => some n
  | .vStr s => strToInt s
  | .vNull => none

/-- Boolean test that `pat` occurs at the start of the list. -/
def startsWith : Str → Str → Bool
  | _, [] => true
  | [], _ :: _ => false
  | a :: as, b :: bs => a = b && startsWith as bs

/-- Python substring test `tok in name`, the predicate behind pandas
`Series.filter(like=tok)`. -/
def strContains (hay tok : Str) : Bool :=
  match hay with
  | [] => startsWith [] tok
  | c :: t => startsWith (c :: t) tok || strContains t tok

/-!
The Text Differ.  `calc_str_diff` in src/app.py delegates to the external
diff_match_patch library (`diff_main` followed by `diff_cleanupSemantic`),
which is not part of this repository.
-/

/-- Split two strings into (common prefix, rest of first, rest of second). -/
def cpSplit : Str → Str → Str × Str × Str
  | [], ys => ([], [], ys)
  | x :: xs, [] => ([], x :: xs, [])
  | x :: xs, y :: ys =>
    if x = y then
      let r := cpSplit xs ys
      (x :: r.1, r.2.1, r.2.2)
    else ([], x :: xs, y :: ys)

/-- Split two strings into (rest of first, rest of second, common suffix). -/
def csSplit (xs ys : Str) : Str × Str × Str :=
  let r := cpSplit xs.reverse ys.reverse
  (r.2.1.reverse, r.2.2.reverse, r.1.reverse)

/-- A tagged diff span: diff_match_patch tags are 0 (equal), -1 (deleted),
1 (inserted); the payload is the substring. -/
abbrev DiffSpan := Int × Str

/-- Modelled from the spec: the Text Differ of section 4.3 is the external
diff_match_patch library (its `diff_main` plus `diff_cleanupSemantic`),
whose code is not in this repository.  Following the spec's DiffSpan
contract, the model emits the common prefix as an equal span, the two
distinct middles as one deleted and one inserted span, and the common
suffix as an equal span; spans are ordered, never empty, and their
concatenation reconstructs both inputs; the output is deterministic. -/
def calc_str_diff (o n : Str) : List DiffSpan :=
  if o = n then (if o = [] then [] else [((0 : Int), o)])
  else
    let p := cpSplit o n
    let s := csSplit p.2.1 p.2.2
    (if p.1 = [] then [] else [((0 : Int), p.1)]) ++
    (if s.1 = [] then [] else [((-1 : Int), s.1)]) ++
    (if s.2.1 = [] then [] else [((1 : Int), s.2.1)]) ++
    (if s.2.2 = [] then [] else [((0 : Int), s.2.2)])

/-- The change signal of src/app.py line 99:
`sum([elem[0] != 0 for elem in diff])`, the number of non-equal spans. -/
def changeSignal (d : List DiffSpan) : Nat :=
  d.countP (fun e => decide (e.1 ≠ 0))

/-- Rendering of a diff, src/app.py `generate_pretty_diff`: equal payloads
pass through, deleted payloads get a combining strikethrough after each
character (joined by " ̶" and closed by "̶"), inserted payloads are wrapped
in `**`. -/
def generate_pretty_diff (d : List DiffSpan) : Str :=
  d.foldl (fun acc e =>
    if e.1 = 0 then acc ++ e.2
    else if e.1 = -1 then
      acc ++ (List.intercalate [' ', '̶'] (e.2.map (fun c => [c]))) ++ ['̶']
    else if e.1 = 1 then acc ++ ('*' :: '*' :: e.2) ++ ['*', '*']
    else acc) []

theorem cpSplit_append (xs : Str) : ∀ ys : Str,
    (cpSplit xs ys).1 ++ (cpSplit xs ys).2.1 = xs ∧
    (cpSplit xs ys).1 ++ (cpSplit xs ys).2.2 = ys := by
  induction xs with
  | nil => intro ys; simp [cpSplit]
  | cons x xs ih =>
    intro ys
    cases ys with
    | nil => simp [cpSplit]
    | cons y ys =>
      by_cases h : x = y
      · subst h
        have := ih ys
        simp [cpSplit, this.1, this.2]
      · simp [cpSplit, h]

theorem cpSplit_self (xs : Str) : cpSplit xs xs = (xs, [], []) := by
  induction xs with
  | nil => simp [cpSplit]
  | cons x xs ih => simp [cpSplit, ih]

theorem csSplit_append (xs ys : Str) :
    (csSplit xs ys).1 ++ (csSplit xs ys).2.2 = xs ∧
    (csSplit xs ys).2.1 ++ (csSplit xs ys).2.2 = ys := by
  have h := cpSplit_append xs.reverse ys.reverse
  constructor
  · have := congrArg List.reverse h.1
    simpa [csSplit, List.reverse_append] using this
  · have := congrArg List.reverse h.2
    simpa [csSplit, List.reverse_append] using this

/-- When the two strings differ, the deleted and inserted middles of the
prefix/suffix split cannot both be empty. -/
theorem calc_mid_ne (o n : Str) (h : o ≠ n) :
    ¬((csSplit (cpSplit o n).2.1 (cpSplit o n).2.2).1 = [] ∧
      (csSplit (cpSplit o n).2.1 (cpSplit o n).2.2).2.1 = []) := by
  rintro ⟨h1, h2⟩
  have hp := cpSplit_append o n
  have hs := csSplit_append (cpSplit o n).2.1 (cpSplit o n).2.2
  apply h
  calc o = (cpSplit o n).1 ++ (cpSplit o n).2.1 := hp.1.symm
    _ = (cpSplit o n).1 ++ (cpSplit o n).2.2 := by
        have e1 := hs.1
        have e2 := hs.2
        rw [h1] at e1
        rw [h2] at e2
        simp at e1 e2
        exact congrArg _ (e1.symm.trans e2)
    _ = n := hp.2

theorem changeSignal_self (s : Str) : changeSignal (calc_str_diff s s) = 0 := by
  by_cases h : s = []
  · simp [calc_str_diff, h, changeSignal]
  · simp [calc_str_diff, h, changeSignal]

/-- C3: for every pair of strings, the change signal of the text diff -- the
count of spans whose tag is not equal -- is zero if and only if the old
string equals the new string. -/
theorem changeSignal_zero_iff (o n : Str) : changeSignal (calc_str_diff o n) = 0 ↔ o = n := by
  constructor
  · intro h
    by_contra hne
    simp only [calc_str_diff] at h
    rw [if_neg hne] at h
    simp only [changeSignal, List.countP_append] at h
    by_cases hb : (csSplit (cpSplit o n).2.1 (cpSplit o n).2.2).1 = []
    · by_cases hc : (csSplit (cpSplit o n).2.1 (cpSplit o n).2.2).2.1 = []
      · exact calc_mid_ne o n hne ⟨hb, hc⟩
      · rw [if_neg hc] at h
        simp [List.countP_cons] at h
    · rw [if_neg hb] at h
      simp [List.countP_cons] at h
  · intro h
    subst h
    exact changeSignal_self o

/-- Concatenation of the payloads of a list of spans. -/
def spanConcat (d : List DiffSpan) : Str :=
  d.foldr (fun e acc => e.2 ++ acc) []

/-- Keep only the spans whose tag is in the given set. -/
def keepTags (tags : List Int) (d : List DiffSpan) : List DiffSpan :=
  d.filter (fun e => decide (e.1 ∈ tags))

theorem spanConcat_append (a b : List DiffSpan) :
    spanConcat (a ++ b) = spanConcat a ++ spanConcat b := by
  induction a with
  | nil => simp [spanConcat]
  | cons x xs ih => simp [spanConcat] at ih ⊢; simp [ih]

theorem spanConcat_keep_append (tags : List Int) (a b : List DiffSpan) :
    spanConcat (keepTags tags (a ++ b)) =
      spanConcat (keepTags tags a) ++ spanConcat (keepTags tags b) := by
  simp [keepTags, List.filter_append, spanConcat_append]

theorem keep_piece (tags : List Int) (t : Int) (z : Str) (ht : t ∈ tags) :
    spanConcat (keepTags tags (if z = [] then [] else [(t, z)])) = z := by
  by_cases hz : z = []
  · simp [hz, keepTags, spanConcat]
  · simp [hz, keepTags, spanConcat, ht]

theorem keep_piece_out (tags : List Int) (t : Int) (z : Str) (ht : t ∉ tags) :
    spanConcat (keepTags tags (if z = [] then [] else [(t, z)])) = [] := by
  by_cases hz : z = []
  · simp [hz, keepTags, spanConcat]
  · simp [hz, keepTags, spanConcat, ht]

/-- C4: concatenating the payloads of the diff's spans filtered to the
equal and inserted tags reconstructs the new string, and filtered to the
equal and deleted tags reconstructs the old string. -/
theorem diff_reconstruct (o n : Str) :
    spanConcat (keepTags [0, 1] (calc_str_diff o n)) = n ∧
    spanConcat (keepTags [0, -1] (calc_str_diff o n)) = o := by
  by_cases h : o = n
  · subst h
    by_cases hz : o = []
    · simp [calc_str_diff, hz, keepTags, spanConcat]
    · simp [calc_str_diff, hz, keepTags, spanConcat]
  · have hp := cpSplit_append o n
    have hs := csSplit_append (cpSplit o n).2.1 (cpSplit o n).2.2
    simp only [calc_str_diff]
    rw [if_neg h]
    constructor
    · rw [spanConcat_keep_append, spanConcat_keep_append, spanConcat_keep_append,
        keep_piece _ _ _ (by decide), keep_piece_out _ _ _ (by decide),
        keep_piece _ _ _ (by decide), keep_piece _ _ _ (by decide),
        List.append_nil, List.append_assoc, hs.2]
      exact hp.2
    · rw [spanConcat_keep_append, spanConcat_keep_append, spanConcat_keep_append,
        keep_piece _ _ _ (by decide), keep_piece _ _ _ (by decide),
        keep_piece_out _ _ _ (by decide), keep_piece _ _ _ (by decide),
        List.append_nil, List.append_assoc, hs.1]
      exact hp.1

/-!
The Record Normalizer (`parse_row`) and the Record Store.
-/

/-- A pandas row as `check_for_change` sees it: ordered (column name, value)
pairs. -/
abbrev Row := List (Str × Val)

/-- Pandas `row.filter(like=tok).get(0, '')`: the value of the first column
whose name contains `tok`, defaulting to the empty string. -/
def rowFilterGet (row : Row) (tok : Str) : Val :=
  match row.find? (fun e => strContains e.1 tok) with
  | some e => e.2
  | none => .vStr []

/-- The 8-tuple returned by `parse_row`, in canonical field order. -/
structure Parsed where
  thema : Val
  ue : Val
  bv : Val
  termine : Val
  uhrzeit : Val
  raum : Val
  anmeldung : Val
  tableNum : Val
deriving DecidableEq

/-- src/app.py `parse_row`: each canonical field is the value of the first
column whose name contains the field's token, defaulting to ''. -/
def parse_row (row : Row) : Parsed :=
  { thema := rowFilterGet row ("Thema").toList
  , ue := rowFilterGet row ("(UE)").toList
  , bv := rowFilterGet row ("Anerkennung").toList
  , termine := rowFilterGet row ("Termin").toList
  , uhrzeit := rowFilterGet row ("Uhrzeit").toList
  , raum := rowFilterGet row ("Raum").toList
  , anmeldung := rowFilterGet row ("Anmeldung").toList
  , tableNum := rowFilterGet row ("table_num").toList }

/-- The tuple as a list, in the order `result_html` has in the source. -/
def toVals (p : Parsed) : List Val :=
  [p.thema, p.ue, p.bv, p.termine, p.uhrzeit, p.raum, p.anmeldung, p.tableNum]

/-- One stored record of the sqlite table CareerCenter.  The program only
ever binds strings for the seven text columns and an int for table_num,
so the store is modelled with those concrete column types. -/
structure DBRow where
  thema : Str
  ue : Str
  bv : Str
  termine : Str
  uhrzeit : Str
  raum : Str
  anmeldung : Str
  tableNum : Int
deriving DecidableEq

abbrev DB := List DBRow

/-- A stored row as `cursor.fetchone()` returns it: seven strings and an
int, in column order. -/
def dbRowVals (r : DBRow) : List Val :=
  [.vStr r.thema, .vStr r.ue, .vStr r.bv, .vStr r.termine,
   .vStr r.uhrzeit, .vStr r.raum, .vStr r.anmeldung, .vInt r.tableNum]

/-- SQLite comparison of a bound parameter against a TEXT column.  The
program only ever binds a str here; numeric-affinity coercions of other
storage classes never make two differently-typed values equal to a text
column in this program's data. -/
def valEqText (v : Val) (s : Str) : Bool :=
  decide (v = Val.vStr s)

/-- SQLite comparison of a bound parameter against the INTEGER column
table_num.  The program binds either the int itself or its `int()`
coercion, so plain integer equality is the exercised semantics. -/
def valEqInt (v : Val) (k : Int) : Bool :=
  decide (v = Val.vInt k)

/-- The SELECT of src/app.py line 84: first row whose primary key
(Thema, table_num) matches, `fetchone`-style. -/
def selectRow (db : DB) (thema : Val) (k : Int) : Option DBRow :=
  db.find? (fun r => valEqText thema r.thema && valEqInt (Val.vInt k) r.tableNum)

/-- Errors the sqlite layer can raise on the store operations. -/
inductive StoreErr where
  | duplicateKey
  | notFound
deriving DecidableEq

/-- The INSERT of src/app.py line 88: sqlite raises an integrity error on a
duplicate primary key, otherwise the row is appended and committed. -/
def insertRow (db : DB) (r : DBRow) : Except StoreErr DB :=
  if db.any (fun x => decide (x.thema = r.thema) && decide (x.tableNum = r.tableNum)) then
    .error .duplicateKey
  else .ok (db ++ [r])

/-- The UPDATE of src/app.py lines 107-115: every row matching the WHERE
clause gets the six non-key columns replaced (TEXT affinity renders a bound
value to text, `valStr`).  An UPDATE matching zero rows completes normally
in sqlite -- it never raises -- hence the result is always `.ok`. -/
def updateFields (db : DB) (ue bv termine uhrzeit raum anmeldung thema tbl : Val) :
    Except StoreErr DB :=
  .ok (db.map (fun r =>
    if valEqText thema r.thema && valEqInt tbl r.tableNum then
      { r with ue := valStr ue, bv := valStr bv, termine := valStr termine,
               uhrzeit := valStr uhrzeit, raum := valStr raum,
               anmeldung := valStr anmeldung }
    else r))

/-- Follows the spec's words (section 4.2): `updateFields` updates all
non-key fields for an existing record and fails with NotFound if the key
does not exist.  This definition exists only to be compared with the
source-derived `updateFields` above. -/
def updateFieldsSpecced (db : DB) (ue bv termine uhrzeit raum anmeldung thema tbl : Val) :
    Except StoreErr DB :=
  if db.any (fun r => valEqText thema r.thema && valEqInt tbl r.tableNum) then
    .ok (db.map (fun r =>
      if valEqText thema r.thema && valEqInt tbl r.tableNum then
        { r with ue := valStr ue, bv := valStr bv, termine := valStr termine,
                 uhrzeit := valStr uhrzeit, raum := valStr raum,
                 anmeldung := valStr anmeldung }
      else r))
  else .error .notFound

/-!
The Change Detector (`check_for_change`).
-/

/-- The body of the per-field loop of src/app.py lines 95-104: diff the
stored and incoming values as strings; on a nonzero change signal the
result entry is the rendered diff and the change flag is set, otherwise
the result entry keeps the stored value. -/
def fieldStep (dh : Val × Val) : Val × Bool :=
  let d := calc_str_diff (valStr dh.1) (valStr dh.2)
  if 0 < changeSignal d then (Val.vStr (generate_pretty_diff d), true)
  else (dh.1, false)

/-- src/app.py `check_for_change`, one row against the store.  The result is
the new store plus the list of tuples handed to `generate_message`
(the emitted notifications); `none` models an uncaught Python/sqlite
exception aborting the run. -/
def check_for_change (row : Row) (db : DB) : Option (DB × List (List Val)) :=
  if row.all (fun e => decide (e.2 = Val.vNull)) then some (db, [])
  else
    let p := parse_row row
    match p.thema with
    | .vStr t =>
      if pyStrip t = [] then some (db, [])
      else
        match valToInt p.tableNum with
        | none => none
        | some k =>
          match selectRow db (.vStr t) k with
          | none =>
            match insertRow db { thema := t, ue := valStr p.ue, bv := valStr p.bv,
                                 termine := valStr p.termine, uhrzeit := valStr p.uhrzeit,
                                 raum := valStr p.raum, anmeldung := valStr p.anmeldung,
                                 tableNum := k } with
            | .ok db2 => some (db2, [toVals p])
            | .error _ => none
          | some r =>
            let step := ((dbRowVals r).zip (toVals p)).map fieldStep
            if step.any Prod.snd then
              match updateFields db p.ue p.bv p.termine p.uhrzeit p.raum p.anmeldung
                  p.thema p.tableNum with
              | .ok db2 => some (db2, [step.map Prod.fst])
              | .error _ => none
            else some (db, [])
    | _ => none

/-- src/app.py `generate_message`: the text delivered for a result tuple,
label and value per line for the seven display fields.  Delivering a
non-string entry would raise in Python; the program only ever passes
strings in the seven display positions. -/
def generate_message (result : List Val) : Str :=
  (((["Thema", "UE", "Fakultät", "Termin(e)", "Uhrzeit", "Raum", "Anmeldung"].map
      String.toList).zip result).foldl
    (fun acc te => acc ++ te.1 ++ (':' :: ' ' :: valStr te.2) ++ ['\n']) [])

/-!
Spec-level descriptions of the Change Detector's found-branch, to be
related to `check_for_change` by the theorems below.
-/

/-- Spec 4.4/4.3: a field with a detected change is replaced by its
rendered diff; an unchanged field keeps the stored value. -/
def specFieldResult (stored newv : Str) : Val :=
  if changeSignal (calc_str_diff stored newv) = 0 then Val.vStr stored
  else Val.vStr (generate_pretty_diff (calc_str_diff stored newv))

/-- The result record of a "changed entry" notification: key fields keep
the stored values, the six non-key fields are diffed field-wise. -/
def specResult (r : DBRow) (u b tm uz rm am : Str) : List Val :=
  [Val.vStr r.thema,
   specFieldResult r.ue u, specFieldResult r.bv b, specFieldResult r.termine tm,
   specFieldResult r.uhrzeit uz, specFieldResult r.raum rm,
   specFieldResult r.anmeldung am,
   Val.vInt r.tableNum]

/-- The store after persisting the new raw field values for the record with
key (t, k): the six non-key fields of every matching row are replaced. -/
def specUpdatedStore (db : DB) (t : Str) (k : Int) (u b tm uz rm am : Str) : DB :=
  db.map (fun x =>
    if t = x.thema ∧ k = x.tableNum then
      { x with ue := u, bv := b, termine := tm, uhrzeit := uz, raum := rm, anmeldung := am }
    else x)

/-- At least one of the six mutable (non-key) fields has a nonzero change
signal between the stored and the incoming value. -/
def specChanged6 (r : DBRow) (u b tm uz rm am : Str) : Prop :=
  changeSignal (calc_str_diff r.ue u) ≠ 0 ∨ changeSignal (calc_str_diff r.bv b) ≠ 0 ∨
  changeSignal (calc_str_diff r.termine tm) ≠ 0 ∨
  changeSignal (calc_str_diff r.uhrzeit uz) ≠ 0 ∨
  changeSignal (calc_str_diff r.raum rm) ≠ 0 ∨
  changeSignal (calc_str_diff r.anmeldung am) ≠ 0

instance specChanged6.dec (r : DBRow) (u b tm uz rm am : Str) :
    Decidable (specChanged6 r u b tm uz rm am) := by
  unfold specChanged6
  infer_instance

/-- At least one of the seven display fields (Topic through Registration,
the spec's "7 non-key fields") has a nonzero change signal. -/
def specChanged7 (r : DBRow) (t u b tm uz rm am : Str) : Prop :=
  changeSignal (calc_str_diff r.thema t) ≠ 0 ∨ specChanged6 r u b tm uz rm am

instance specChanged7.dec (r : DBRow) (t u b tm uz rm am : Str) :
    Decidable (specChanged7 r t u b tm uz rm am) := by
  unfold specChanged7
  infer_instance

theorem fieldStep_same (x y : Val) (h : valStr x = valStr y) :
    fieldStep (x, y) = (x, false) := by
  simp [fieldStep, h, changeSignal_self]

theorem fieldStep_str (a c : Str) :
    fieldStep (Val.vStr a, Val.vStr c) =
      (specFieldResult a c, decide (changeSignal (calc_str_diff a c) ≠ 0)) := by
  by_cases h : changeSignal (calc_str_diff a c) = 0
  · simp [fieldStep, valStr, specFieldResult, h]
  · simp [fieldStep, valStr, specFieldResult, h, Nat.pos_of_ne_zero h]

theorem selectRow_some (db : DB) (v : Val) (k : Int) (r : DBRow)
    (h : selectRow db v k = some r) :
    v = Val.vStr r.thema ∧ r.tableNum = k ∧ r ∈ db := by
  have hm := List.mem_of_find?_eq_some h
  have hq := List.find?_some h
  simp [valEqText, valEqInt] at hq
  exact ⟨hq.1, hq.2.symm, hm⟩

theorem selectRow_none (db : DB) (t : Str) (k : Int)
    (h : selectRow db (Val.vStr t) k = none) :
    ∀ r ∈ db, ¬(r.thema = t ∧ r.tableNum = k) := by
  intro r hr hcon
  have hq := List.find?_eq_none.mp h r hr
  simp [valEqText, valEqInt, hcon.1, hcon.2] at hq

theorem rowFilterGet_allNull (row : Row) (tok : Str)
    (h : row.all (fun e => decide (e.2 = Val.vNull)) = true) :
    rowFilterGet row tok = Val.vNull ∨ rowFilterGet row tok = Val.vStr [] := by
  unfold rowFilterGet
  cases hf : row.find? (fun e => strContains e.1 tok) with
  | none => right; rfl
  | some e =>
    left
    have hm := List.mem_of_find?_eq_some hf
    have he := List.all_eq_true.mp h e hm
    simpa using he

theorem not_allNull (row : Row) (t : Str)
    (hth : (parse_row row).thema = Val.vStr t) (ht : pyStrip t ≠ []) :
    row.all (fun e => decide (e.2 = Val.vNull)) = false := by
  cases hall : row.all (fun e => decide (e.2 = Val.vNull)) with
  | false => rfl
  | true =>
    exfalso
    have hcase := rowFilterGet_allNull row ("Thema").toList hall
    simp only [parse_row] at hth
    rcases hcase with hcase | hcase
    · rw [hth] at hcase
      exact Val.noConfusion hcase
    · rw [hth] at hcase
      have hte : t = [] := by injection hcase
      subst hte
      exact ht rfl

theorem updateFields_spec_map (db : DB) (u b tm uz rm am t : Str) (k : Int) :
    updateFields db (Val.vStr u) (Val.vStr b) (Val.vStr tm) (Val.vStr uz) (Val.vStr rm)
        (Val.vStr am) (Val.vStr t) (Val.vInt k) =
      Except.ok (specUpdatedStore db t k u b tm uz rm am) := by
  unfold updateFields specUpdatedStore
  refine congrArg Except.ok ?_
  apply List.map_congr_left
  intro x _
  simp [valEqText, valEqInt, valStr]

theorem specFieldResult_self (s : Str) : specFieldResult s s = Val.vStr s := by
  simp [specFieldResult, changeSignal_self]

/-- The found branch of `check_for_change`: with a pipeline-shaped row whose
key is in the store, the outcome is decided by the six mutable fields. -/
theorem checkForChange_found (row : Row) (db : DB) (t u b tm uz rm am : Str) (k : Int)
    (r : DBRow)
    (hp : parse_row row = ⟨Val.vStr t, Val.vStr u, Val.vStr b, Val.vStr tm, Val.vStr uz,
            Val.vStr rm, Val.vStr am, Val.vInt k⟩)
    (ht : pyStrip t ≠ [])
    (hsel : selectRow db (Val.vStr t) k = some r) :
    check_for_change row db =
      if specChanged6 r u b tm uz rm am then
        some (specUpdatedStore db r.thema r.tableNum u b tm uz rm am,
              [specResult r u b tm uz rm am])
      else some (db, []) := by
  obtain ⟨hv, hk, -⟩ := selectRow_some db (Val.vStr t) k r hsel
  have hteq : t = r.thema := by injection hv
  subst hteq
  subst hk
  have hall := not_allNull row r.thema (by rw [hp]) ht
  unfold check_for_change
  rw [hall]
  simp only [Bool.false_eq_true, if_false, hp]
  rw [if_neg ht]
  simp only [valToInt]
  rw [hsel]
  simp only [dbRowVals, toVals, List.zip_cons_cons, List.zip_nil_right, List.map_cons,
    List.map_nil, fieldStep_same (Val.vInt r.tableNum) (Val.vInt r.tableNum) rfl,
    fieldStep_str, List.any_cons, List.any_nil]
  have hd : (decide (changeSignal (calc_str_diff r.thema r.thema) ≠ 0)) = false := by
    simp [changeSignal_self]
  rw [hd]
  by_cases hch : specChanged6 r u b tm uz rm am
  · rw [if_pos hch]
    have hb : (false || (decide (changeSignal (calc_str_diff r.ue u) ≠ 0) ||
        (decide (changeSignal (calc_str_diff r.bv b) ≠ 0) ||
        (decide (changeSignal (calc_str_diff r.termine tm) ≠ 0) ||
        (decide (changeSignal (calc_str_diff r.uhrzeit uz) ≠ 0) ||
        (decide (changeSignal (calc_str_diff r.raum rm) ≠ 0) ||
        (decide (changeSignal (calc_str_diff r.anmeldung am) ≠ 0) ||
        (false || false)))))))) = true := by
      simp only [Bool.or_eq_true, decide_eq_true_eq, Bool.false_eq_true, or_false,
        false_or]
      simpa [specChanged6] using hch
    rw [hb]
    rw [updateFields_spec_map]
    simp [specResult, specFieldResult_self]
  · rw [if_neg hch]
    have hb : (false || (decide (changeSignal (calc_str_diff r.ue u) ≠ 0) ||
        (decide (changeSignal (calc_str_diff r.bv b) ≠ 0) ||
        (decide (changeSignal (calc_str_diff r.termine tm) ≠ 0) ||
        (decide (changeSignal (calc_str_diff r.uhrzeit uz) ≠ 0) ||
        (decide (changeSignal (calc_str_diff r.raum rm) ≠ 0) ||
        (decide (changeSignal (calc_str_diff r.anmeldung am) ≠ 0) ||
        (false || false)))))))) = false := by
      simp only [Bool.or_eq_false_iff, decide_eq_false_iff_not, Bool.false_eq_true]
      simp only [specChanged6, not_or] at hch
      tauto
    rw [hb]
    simp

/-- C1: for a row whose (Topic, TableIndex) key is already in the store, the
detector diffs the stored against the new value for each of the 7 display
fields; when at least one has a nonzero change signal it persists the new
raw (undiffed) field values via the update operation and emits exactly one
changed-entry notification whose record replaces changed fields by their
rendered diff and keeps the stored value elsewhere. -/
theorem changed_entry_behaviour (row : Row) (db : DB) (t u b tm uz rm am : Str) (k : Int)
    (r : DBRow)
    (hp : parse_row row = ⟨Val.vStr t, Val.vStr u, Val.vStr b, Val.vStr tm, Val.vStr uz,
            Val.vStr rm, Val.vStr am, Val.vInt k⟩)
    (ht : pyStrip t ≠ [])
    (hsel : selectRow db (Val.vStr t) k = some r)
    (hch : specChanged7 r t u b tm uz rm am) :
    check_for_change row db =
      some (specUpdatedStore db r.thema r.tableNum u b tm uz rm am,
            [specResult r u b tm uz rm am]) := by
  have h6 : specChanged6 r u b tm uz rm am := by
    obtain ⟨hv, -, -⟩ := selectRow_some db (Val.vStr t) k r hsel
    have hteq : t = r.thema := by injection hv
    rcases hch with hth | h6
    · exfalso
      rw [hteq] at hth
      exact hth (changeSignal_self r.thema)
    · exact h6
  rw [checkForChange_found row db t u b tm uz rm am k r hp ht hsel, if_pos h6]

theorem changed_entry_behaviour_witness :
    check_for_change
        [(("Thema").toList, Val.vStr ['X']), (("(UE)").toList, Val.vStr ['1', '2']),
         (("table_num").toList, Val.vInt 0)]
        [{ thema := ['X'], ue := ['1', '0'], bv := [], termine := [], uhrzeit := [],
           raum := [], anmeldung := [], tableNum := 0 }] =
      some (specUpdatedStore
              [{ thema := ['X'], ue := ['1', '0'], bv := [], termine := [], uhrzeit := [],
                 raum := [], anmeldung := [], tableNum := 0 }] ['X'] 0
              ['1', '2'] [] [] [] [] [],
            [specResult
              { thema := ['X'], ue := ['1', '0'], bv := [], termine := [], uhrzeit := [],
                raum := [], anmeldung := [], tableNum := 0 }
              ['1', '2'] [] [] [] [] []]) :=
  changed_entry_behaviour _ _ ['X'] ['1', '2'] [] [] [] [] [] 0
    { thema := ['X'], ue := ['1', '0'], bv := [], termine := [], uhrzeit := [],
      raum := [], anmeldung := [], tableNum := 0 }
    (by decide) (by decide) (by decide) (by decide)

/-- C5: when the incoming row's normalized fields all equal the stored
values, the detector performs no store write and emits no notification. -/
theorem unchanged_entry_noop (row : Row) (db : DB) (r : DBRow)
    (hp : parse_row row = ⟨Val.vStr r.thema, Val.vStr r.ue, Val.vStr r.bv,
            Val.vStr r.termine, Val.vStr r.uhrzeit, Val.vStr r.raum,
            Val.vStr r.anmeldung, Val.vInt r.tableNum⟩)
    (ht : pyStrip r.thema ≠ [])
    (hsel : selectRow db (Val.vStr r.thema) r.tableNum = some r) :
    check_for_change row db = some (db, []) := by
  rw [checkForChange_found row db r.thema r.ue r.bv r.termine r.uhrzeit r.raum
      r.anmeldung r.tableNum r hp ht hsel]
  rw [if_neg]
  simp [specChanged6, changeSignal_self]

theorem unchanged_entry_noop_witness :
    check_for_change
        [(("Thema").toList, Val.vStr ['X']), (("table_num").toList, Val.vInt 0)]
        [{ thema := ['X'], ue := [], bv := [], termine := [], uhrzeit := [],
           raum := [], anmeldung := [], tableNum := 0 }] =
      some ([{ thema := ['X'], ue := [], bv := [], termine := [], uhrzeit := [],
               raum := [], anmeldung := [], tableNum := 0 }], []) :=
  unchanged_entry_noop _ _
    { thema := ['X'], ue := [], bv := [], termine := [], uhrzeit := [],
      raum := [], anmeldung := [], tableNum := 0 }
    (by decide) (by decide) (by decide)

/-- C10: when the lookup finds a stored record, the key-field diffs (Topic
and TableIndex) have zero change signal, the change decision reduces to the
six non-key fields, and the Topic entry of a changed-entry result record is
the plain stored value, never a rendered diff. -/
theorem key_fields_never_diff (row : Row) (db : DB) (t u b tm uz rm am : Str) (k : Int)
    (r : DBRow)
    (hp : parse_row row = ⟨Val.vStr t, Val.vStr u, Val.vStr b, Val.vStr tm, Val.vStr uz,
            Val.vStr rm, Val.vStr am, Val.vInt k⟩)
    (ht : pyStrip t ≠ [])
    (hsel : selectRow db (Val.vStr t) k = some r) :
    changeSignal (calc_str_diff (valStr (Val.vStr r.thema)) (valStr (Val.vStr t))) = 0 ∧
    changeSignal (calc_str_diff (valStr (Val.vInt r.tableNum)) (valStr (Val.vInt k))) = 0 ∧
    check_for_change row db =
      (if specChanged6 r u b tm uz rm am then
        some (specUpdatedStore db r.thema r.tableNum u b tm uz rm am,
              [specResult r u b tm uz rm am])
      else some (db, [])) ∧
    (specResult r u b tm uz rm am).headD Val.vNull = Val.vStr r.thema := by
  obtain ⟨hv, hk, -⟩ := selectRow_some db (Val.vStr t) k r hsel
  have hteq : t = r.thema := by injection hv
  subst hteq
  subst hk
  exact ⟨by simp [valStr, changeSignal_self], by simp [valStr, changeSignal_self],
    checkForChange_found row db r.thema u b tm uz rm am r.tableNum r hp ht hsel, rfl⟩

theorem key_fields_never_diff_witness :
    changeSignal (calc_str_diff (valStr (Val.vStr ['X'])) (valStr (Val.vStr ['X']))) = 0 ∧
    changeSignal (calc_str_diff (valStr (Val.vInt 0)) (valStr (Val.vInt 0))) = 0 ∧
    check_for_change
        [(("Thema").toList, Val.vStr ['X']), (("(UE)").toList, Val.vStr ['1', '2']),
         (("table_num").toList, Val.vInt 0)]
        [{ thema := ['X'], ue := ['1', '0'], bv := [], termine := [], uhrzeit := [],
           raum := [], anmeldung := [], tableNum := 0 }] =
      (if specChanged6
            { thema := ['X'], ue := ['1', '0'], bv := [], termine := [], uhrzeit := [],
              raum := [], anmeldung := [], tableNum := 0 } ['1', '2'] [] [] [] [] [] then
        some (specUpdatedStore
                [{ thema := ['X'], ue := ['1', '0'], bv := [], termine := [], uhrzeit := [],
                   raum := [], anmeldung := [], tableNum := 0 }] ['X'] 0
                ['1', '2'] [] [] [] [] [],
              [specResult
                { thema := ['X'], ue := ['1', '0'], bv := [], termine := [], uhrzeit := [],
                  raum := [], anmeldung := [], tableNum := 0 } ['1', '2'] [] [] [] [] []])
      else some ([{ thema := ['X'], ue := ['1', '0'], bv := [], termine := [], uhrzeit := [],
                    raum := [], anmeldung := [], tableNum := 0 }], [])) ∧
    (specResult
        { thema := ['X'], ue := ['1', '0'], bv := [], termine := [], uhrzeit := [],
          raum := [], anmeldung := [], tableNum := 0 }
        ['1', '2'] [] [] [] [] []).headD Val.vNull = Val.vStr ['X'] :=
  key_fields_never_diff _ _ ['X'] ['1', '2'] [] [] [] [] [] 0
    { thema := ['X'], ue := ['1', '0'], bv := [], termine := [], uhrzeit := [],
      raum := [], anmeldung := [], tableNum := 0 }
    (by decide) (by decide) (by decide)

/-- C2: for a row whose normalized Topic is non-empty and whose key is not
in the store, the detector inserts the full normalized 8-field record,
commits, and emits exactly one new-entry notification with the full
record. -/
theorem new_entry_behaviour (row : Row) (db : DB) (t u b tm uz rm am : Str) (k : Int)
    (hp : parse_row row = ⟨Val.vStr t, Val.vStr u, Val.vStr b, Val.vStr tm, Val.vStr uz,
            Val.vStr rm, Val.vStr am, Val.vInt k⟩)
    (ht : pyStrip t ≠ [])
    (hsel : selectRow db (Val.vStr t) k = none) :
    check_for_change row db =
      some (db ++ [{ thema := t, ue := u, bv := b, termine := tm, uhrzeit := uz,
                     raum := rm, anmeldung := am, tableNum := k }],
            [[Val.vStr t, Val.vStr u, Val.vStr b, Val.vStr tm, Val.vStr uz,
              Val.vStr rm, Val.vStr am, Val.vInt k]]) := by
  have hall := not_allNull row t (by rw [hp]) ht
  have hno := selectRow_none db t k hsel
  unfold check_for_change
  rw [hall]
  simp only [Bool.false_eq_true, if_false, hp]
  rw [if_neg ht]
  simp only [valToInt]
  rw [hsel]
  have hfalse : db.any (fun x => decide (x.thema = t) && decide (x.tableNum = k)) = false := by
    rw [List.any_eq_false]
    intro x hx
    simp only [Bool.and_eq_true, decide_eq_true_eq]
    exact hno x hx
  simp only [insertRow, valStr, toVals]
  rw [hfalse]
  simp

theorem new_entry_behaviour_witness :
    check_for_change
        [(("Thema").toList, Val.vStr ['X']), (("(UE)").toList, Val.vStr ['2', '0']),
         (("table_num").toList, Val.vInt 0)] [] =
      some ([{ thema := ['X'], ue := ['2', '0'], bv := [], termine := [], uhrzeit := [],
               raum := [], anmeldung := [], tableNum := 0 }],
            [[Val.vStr ['X'], Val.vStr ['2', '0'], Val.vStr [], Val.vStr [], Val.vStr [],
              Val.vStr [], Val.vStr [], Val.vInt 0]]) :=
  new_entry_behaviour _ _ ['X'] ['2', '0'] [] [] [] [] [] 0
    (by decide) (by decide) (by decide)

/-- C7: a row whose normalized Topic is empty or whitespace-only is skipped
entirely: the store is unchanged and no notification is emitted. -/
theorem empty_topic_skip (row : Row) (db : DB) (t : Str)
    (hth : (parse_row row).thema = Val.vStr t) (ht : pyStrip t = []) :
    check_for_change row db = some (db, []) := by
  cases hall : row.all (fun e => decide (e.2 = Val.vNull)) with
  | true =>
    unfold check_for_change
    rw [hall]
    simp
  | false =>
    unfold check_for_change
    rw [hall]
    simp only [Bool.false_eq_true, if_false]
    rw [hth]
    simp [ht]

theorem empty_topic_skip_witness :
    check_for_change [(("Thema").toList, Val.vStr [' ', ' '])]
        [{ thema := ['X'], ue := [], bv := [], termine := [], uhrzeit := [],
           raum := [], anmeldung := [], tableNum := 0 }] =
      some ([{ thema := ['X'], ue := [], bv := [], termine := [], uhrzeit := [],
               raum := [], anmeldung := [], tableNum := 0 }], []) :=
  empty_topic_skip _ _ [' ', ' '] (by decide) (by decide)

/-- The known substring tokens of the Record Normalizer, in canonical field
order (src/app.py lines 128-135). -/
def knownTokens : List Str :=
  [("Thema").toList, ("(UE)").toList, ("Anerkennung").toList, ("Termin").toList,
   ("Uhrzeit").toList, ("Raum").toList, ("Anmeldung").toList, ("table_num").toList]

/-- Whether a value is an integer value. -/
def valIsInt : Val → Bool
  | .vInt _ => true
  | _ => false

/-- C6 (counterexample to the claim as stated): `parse_row` performs no
integer coercion on TableIndex; a matched string column value is returned
as the string it is, not as an integer. -/
theorem parse_row_no_coercion_cex :
    (parse_row [(("table_num").toList, Val.vStr ['5'])]).tableNum = Val.vStr ['5'] ∧
    valIsInt (parse_row [(("table_num").toList, Val.vStr ['5'])]).tableNum = false := by
  decide

/-- C6 (amended): each canonical field takes the value of the first column
whose name contains that field's token, defaulting to the empty string when
no column matches; the returned TableIndex is the raw matched value with no
integer coercion (int() is applied later, at lookup time in
check_for_change); in particular, for a row with no column matching any
known token, all eight fields, TableIndex included, normalize to the empty
string. -/
theorem parse_row_no_match (row : Row)
    (h : ∀ e ∈ row, ∀ tok ∈ knownTokens, strContains e.1 tok = false) :
    parse_row row = ⟨Val.vStr [], Val.vStr [], Val.vStr [], Val.vStr [], Val.vStr [],
      Val.vStr [], Val.vStr [], Val.vStr []⟩ := by
  have hg : ∀ tok ∈ knownTokens, rowFilterGet row tok = Val.vStr [] := by
    intro tok htok
    unfold rowFilterGet
    have hf : row.find? (fun e => strContains e.1 tok) = none := by
      rw [List.find?_eq_none]
      intro e he
      simp [h e he tok htok]
    rw [hf]
  unfold parse_row
  rw [hg (("Thema").toList) (by decide), hg (("(UE)").toList) (by decide),
    hg (("Anerkennung").toList) (by decide), hg (("Termin").toList) (by decide),
    hg (("Uhrzeit").toList) (by decide), hg (("Raum").toList) (by decide),
    hg (("Anmeldung").toList) (by decide), hg (("table_num").toList) (by decide)]

theorem parse_row_no_match_witness :
    parse_row [(("Foo").toList, Val.vStr ['x'])] =
      ⟨Val.vStr [], Val.vStr [], Val.vStr [], Val.vStr [], Val.vStr [],
       Val.vStr [], Val.vStr [], Val.vStr []⟩ :=
  parse_row_no_match _ (by decide)

/-- C8 (counterexample to the claim as stated): on an empty store, where no
record with the key exists, the update operation completes successfully --
a sqlite UPDATE matching zero rows raises nothing -- rather than failing
with a NotFound error. -/
theorem updateFields_no_notfound_cex :
    updateFields [] (Val.vStr []) (Val.vStr []) (Val.vStr []) (Val.vStr []) (Val.vStr [])
        (Val.vStr []) (Val.vStr ['X']) (Val.vInt 0) = Except.ok [] ∧
    updateFields [] (Val.vStr []) (Val.vStr []) (Val.vStr []) (Val.vStr []) (Val.vStr [])
        (Val.vStr []) (Val.vStr ['X']) (Val.vInt 0) ≠ Except.error StoreErr.notFound := by
  constructor
  · rfl
  · simp [updateFields]

/-- C8 (amended): the update operation always completes successfully; when
no record with the given key exists it updates zero rows and leaves the
store unchanged instead of raising NotFound; when the key exists, it agrees
with the spec-worded updateFieldsSpecced, updating all non-key fields of
the matching record. -/
theorem updateFields_success_semantics (db : DB)
    (ue bv termine uhrzeit raum anmeldung thema tbl : Val) :
    (∃ db2, updateFields db ue bv termine uhrzeit raum anmeldung thema tbl =
        Except.ok db2) ∧
    ((∀ r ∈ db, (valEqText thema r.thema && valEqInt tbl r.tableNum) = false) →
      updateFields db ue bv termine uhrzeit raum anmeldung thema tbl = Except.ok db) ∧
    ((∃ r ∈ db, (valEqText thema r.thema && valEqInt tbl r.tableNum) = true) →
      updateFields db ue bv termine uhrzeit raum anmeldung thema tbl =
        updateFieldsSpecced db ue bv termine uhrzeit raum anmeldung thema tbl) := by
  refine ⟨⟨_, rfl⟩, ?_, ?_⟩
  · intro h
    unfold updateFields
    refine congrArg Except.ok ((List.map_congr_left ?_).trans (List.map_id db))
    intro r hr
    rw [h r hr]
    simp
  · rintro ⟨r, hr, hcond⟩
    unfold updateFields updateFieldsSpecced
    rw [List.any_eq_true.mpr ⟨r, hr, hcond⟩]
    simp

theorem updateFields_success_semantics_witness :
    updateFields
        [{ thema := ['X'], ue := [], bv := [], termine := [], uhrzeit := [],
           raum := [], anmeldung := [], tableNum := 0 }]
        (Val.vStr ['u']) (Val.vStr []) (Val.vStr []) (Val.vStr []) (Val.vStr [])
        (Val.vStr []) (Val.vStr ['Y']) (Val.vInt 1) =
      Except.ok
        [{ thema := ['X'], ue := [], bv := [], termine := [], uhrzeit := [],
           raum := [], anmeldung := [], tableNum := 0 }] :=
  (updateFields_success_semantics _ _ _ _ _ _ _ _ _).2.1 (by decide)

/-!
The table preprocessing step (`table_preprocessing` in src/app.py).
-/

/-- Lexicographic string comparison by code point, Python's string order,
used because pandas groupby sorts the group keys ascending. -/
def strLeB : Str → Str → Bool
  | [], _ => true
  | _ :: _, [] => false
  | a :: as, b :: bs => if a = b then strLeB as bs else decide (a < b)

/-- Sorted group keys, as pandas groupby produces them. -/
def sortKeys (l : List Str) : List Str :=
  List.insertionSort (fun a b => strLeB a b = true) l

/-- A raw HTML table as pandas read_html yields it: column names and rows of
cells, a cell being a string or NaN. -/
structure RawTable where
  cols : List Str
  rows : List (List (Option Str))

/-- Replace NaN cells by '' (the `df.where(pd.notnull(df), '')` step). -/
def fillRow (r : List (Option Str)) : List Str :=
  r.map (fun c => c.getD [])

/-- The `', '.join(col)` aggregation of column `j` over a group of rows. -/
def aggCol (grp : List (List Str)) (j : Nat) : Str :=
  List.intercalate ((", ").toList) (grp.map (fun r => r.getD j []))

/-- src/app.py `table_preprocessing`: NaN cells become '', rows are grouped
by the value of the FIRST column (pandas groupby sorts the group keys
ascending), every other column of a group is joined with ', ', and the
integer column table_num := idx is appended.  The output rows are in the
(column name, value) form that `check_for_change` receives. -/
def table_preprocessing (t : RawTable) (idx : Int) : List Row :=
  let filled := t.rows.map fillRow
  let keys := sortKeys ((filled.map (fun r => r.headD [])).dedup)
  keys.map (fun kkey =>
    let grp := filled.filter (fun r => decide (r.headD [] = kkey))
    (t.cols.headD [], Val.vStr kkey) ::
    ((List.range (t.cols.length - 1)).map
      (fun j => (t.cols.getD (j + 1) [], Val.vStr (aggCol grp (j + 1))))) ++
    [(("table_num").toList, Val.vInt idx)])

/-- C9 (counterexample to the claim as stated): two raw rows that agree on
the normalized Topic but differ in the first column are NOT merged, and the
Change Detector receives two rows of the same table with the same
(Topic, TableIndex) primary key. -/
theorem table_preprocessing_topic_cex :
    (table_preprocessing ⟨[("A").toList, ("Thema").toList],
        [[some ['1'], some ['X']], [some ['2'], some ['X']]]⟩ 0).length = 2 ∧
    (parse_row ((table_preprocessing ⟨[("A").toList, ("Thema").toList],
        [[some ['1'], some ['X']], [some ['2'], some ['X']]]⟩ 0).getD 0 [])).thema =
      Val.vStr ['X'] ∧
    (parse_row ((table_preprocessing ⟨[("A").toList, ("Thema").toList],
        [[some ['1'], some ['X']], [some ['2'], some ['X']]]⟩ 0).getD 1 [])).thema =
      Val.vStr ['X'] ∧
    (parse_row ((table_preprocessing ⟨[("A").toList, ("Thema").toList],
        [[some ['1'], some ['X']], [some ['2'], some ['X']]]⟩ 0).getD 0 [])).tableNum =
      Val.vInt 0 ∧
    (parse_row ((table_preprocessing ⟨[("A").toList, ("Thema").toList],
        [[some ['1'], some ['X']], [some ['2'], some ['X']]]⟩ 0).getD 1 [])).tableNum =
      Val.vInt 0 := by
  decide

/-- C9 (amended): rows of a source table are merged by the value of the
table's FIRST column: the output has exactly one record per distinct
first-column value (the other columns of a group joined with ', '), so
first-column values never repeat in the output, and every input row's
first-column value is represented; grouping is not by the normalized Topic,
so duplicate (Topic, TableIndex) keys are prevented only when the Topic is
normalized from the first column. -/
theorem table_preprocessing_first_col_merge (t : RawTable) (idx : Int) :
    ((table_preprocessing t idx).map
        (fun row => (row.headD ([], Val.vNull)).2)).Nodup ∧
    (∀ raw ∈ t.rows, ∃ row ∈ table_preprocessing t idx,
        (row.headD ([], Val.vNull)).2 = Val.vStr ((fillRow raw).headD [])) := by
  constructor
  · simp only [table_preprocessing]
    rw [List.map_map]
    have hkeys : (sortKeys (((t.rows.map fillRow).map (fun r => r.headD [])).dedup)).Nodup := by
      unfold sortKeys
      have hperm := List.perm_insertionSort (fun a b => strLeB a b = true)
        (((t.rows.map fillRow).map (fun r => r.headD [])).dedup)
      exact hperm.nodup_iff.mpr (List.nodup_dedup _)
    refine hkeys.map ?_
    intro a c hac
    simpa using hac
  · intro raw hraw
    have h1 : fillRow raw ∈ t.rows.map fillRow := List.mem_map_of_mem fillRow hraw
    have h2 : (fillRow raw).headD [] ∈ (t.rows.map fillRow).map (fun r => r.headD []) :=
      List.mem_map_of_mem _ h1
    have h3 : (fillRow raw).headD [] ∈
        ((t.rows.map fillRow).map (fun r => r.headD [])).dedup :=
      List.mem_dedup.mpr h2
    have h4 : (fillRow raw).headD [] ∈
        sortKeys ((((t.rows.map fillRow).map (fun r => r.headD []))).dedup) := by
      unfold sortKeys
      exact ((List.perm_insertionSort _ _).mem_iff).mpr h3
    simp only [table_preprocessing]
    exact ⟨_, List.mem_map_of_mem _ h4, rfl⟩

theorem table_preprocessing_first_col_merge_witness :
    ∃ row ∈ table_preprocessing ⟨[("A").toList], [[some ['1']]]⟩ 0,
      (row.headD ([], Val.vNull)).2 = Val.vStr ((fillRow [some ['1']]).headD []) :=
  (table_preprocessing_first_col_merge _ _).2 [some ['1']] (by decide)
